import Mathlib

/-!
Verification development for the RAG orchestration layer of the
Steeves & Associates dashboard backend.

The Python sources embedded here (shallowly, as pure Lean functions with
explicit state passing) are:
  * `dashboard-api/optimized_query_engine.py` — `OptimizedQueryEngine`
    (query entry point, in-memory TTL cache, fallback responses);
  * `dashboard-api/performance_monitor.py` — `PerformanceMonitor`
    (request counters, response-time buffer, percentiles);
  * `dashboard-api/rag_manager.py` — `RAGManager.enhanced_query`
    (mode-parameterized retrieval with error classification and reset);
  * `dashboard-api/gemini_client_manager.py` —
    `GeminiClientManager.generate_content_async` (retry loop with backoff).

Python dictionaries are modelled as association lists (`List (String × α)`)
preserving insertion order, matching CPython dict semantics; wall-clock
times are modelled as natural numbers; exceptions of the modelled
components are modelled as explicit outcome values (`Except`, outcome
inductives), and a function that in Python catches every exception is
total here.
-/

namespace Dashboard

/-! ## Association lists modelling Python dicts (insertion-ordered) -/

/-- Lookup: `d.get(k)` / `k in d`.  First entry with the key wins
(keys are unique in a real dict; reachable states keep them unique). -/
def alGet {α : Type} : List (String × α) → String → Option α
  | [], _ => none
  | p :: rest, k => if p.1 = k then some p.2 else alGet rest k

/-- Removal: `d.pop(k, None)`.  Removes every entry with the key
(exactly one in a real dict). -/
def alErase {α : Type} : List (String × α) → String → List (String × α)
  | [], _ => []
  | p :: rest, k => if p.1 = k then alErase rest k else p :: alErase rest k

/-- In-place update of an existing key, preserving its position. -/
def alUpdate {α : Type} : List (String × α) → String → α → List (String × α)
  | [], _, _ => []
  | p :: rest, k, v => if p.1 = k then (k, v) :: alUpdate rest k v else p :: alUpdate rest k v

/-- Assignment `d[k] = v`: update in place if the key exists, else append
(CPython dicts append new keys at the end of the iteration order). -/
def alInsert {α : Type} (l : List (String × α)) (k : String) (v : α) : List (String × α) :=
  if (alGet l k).isSome then alUpdate l k v else l ++ [(k, v)]

/-- The keys of the dict, in iteration order (`d.keys()`). -/
def alKeys {α : Type} (l : List (String × α)) : List String :=
  l.map Prod.fst

/-- `min(d.items(), key=value)` helper: running minimum, replacing the
current best only on a strictly smaller value, so the FIRST minimal entry
in iteration order wins — exactly Python's `min` tie-breaking. -/
def minKeyAux : (String × Nat) → List (String × Nat) → (String × Nat)
  | best, [] => best
  | best, p :: rest => if p.2 < best.2 then minKeyAux p rest else minKeyAux best rest

/-- `min(d.keys(), key=lambda k: d[k])` together with its value;
`none` on the empty dict (where Python's `min` would raise `ValueError`). -/
def minKeyPair : List (String × Nat) → Option (String × Nat)
  | [] => none
  | p :: rest => some (minKeyAux p rest)

/-! ## Character-list string helpers (Python `in`, `startswith`, `strip`) -/

/-- `listStartsWith hay needle`: `hay` begins with `needle`. -/
def listStartsWith : List Char → List Char → Bool
  | _, [] => true
  | [], _ :: _ => false
  | a :: as, b :: bs => a == b && listStartsWith as bs

/-- `needle in hay` on character lists (Python substring test). -/
def listContainsAux : List Char → List Char → Bool
  | [], needle => listStartsWith [] needle
  | h :: t, needle => listStartsWith (h :: t) needle || listContainsAux t needle

/-- Python `sub in s` (substring containment). -/
def strContains (s sub : String) : Bool :=
  listContainsAux s.data sub.data

/-- Python `s.lower()` (ASCII-relevant part of it). -/
def strLower (s : String) : String :=
  ⟨s.data.map Char.toLower⟩

/-- Python `s.startswith(sub)`. -/
def strStartsWith (s sub : String) : Bool :=
  listStartsWith s.data sub.data

/-- Python `s.strip()` (whitespace at both ends). -/
def strStrip (s : String) : String :=
  ⟨((s.data.dropWhile Char.isWhitespace).reverse.dropWhile Char.isWhitespace).reverse⟩

/-- Python `s[:n]`. -/
def strTake (s : String) (n : Nat) : String :=
  ⟨s.data.take n⟩

/-- Python `len(s)`. -/
def strLen (s : String) : Nat :=
  s.data.length

/-! ## OptimizedQueryEngine: configuration and cache state -/

/-- The optimization settings fixed in `OptimizedQueryEngine.__init__`. -/
structure EngineConfig where
  enable_caching : Bool
  enable_fallback : Bool
  max_query_length : Nat
  cache_ttl : Nat

/-- The `__init__` values: caching and fallback on, 2000-char limit, 1h TTL. -/
def defaultConfig : EngineConfig :=
  { enable_caching := true
    enable_fallback := true
    max_query_length := 2000
    cache_ttl := 3600 }

/-- The two dicts `self.query_cache` and `self.cache_expiry`. -/
structure CacheState where
  query_cache : List (String × String)
  cache_expiry : List (String × Nat)
deriving DecidableEq

/-- The state right after `__init__`: both dicts empty. -/
def emptyCache : CacheState := ⟨[], []⟩

/-- A Python argument that may or may not be a string
(`_preprocess_query` checks `isinstance(query, str)`). -/
inductive PyInput where
  | nonString
  | str (s : String)

/-- `OptimizedQueryEngine._preprocess_query`: returns `""` for falsy or
non-string input, else strips and truncates to `max_query_length`
appending `"..."`. -/
def preprocessQuery (cfg : EngineConfig) (q : PyInput) : String :=
  match q with
  | .nonString => ""
  | .str s =>
    if s = "" then ""
    else
      let cleaned := strStrip s
      if strLen cleaned > cfg.max_query_length then strTake cleaned cfg.max_query_length ++ "..."
      else cleaned

/-- The cache key `f"{query}_{mode}"`. -/
def cacheKey (query mode : String) : String :=
  query ++ "_" ++ mode

/-- `OptimizedQueryEngine._check_cache`: returns the live cached value, or
`none`; an expired entry is popped from both dicts.  `now` models
`time.time()`. -/
def checkCache (st : CacheState) (now : Nat) (query mode : String) :
    Option String × CacheState :=
  let key := cacheKey query mode
  match alGet st.query_cache key with
  | some v =>
    if now < (alGet st.cache_expiry key).getD 0 then (some v, st)
    else (none, ⟨alErase st.query_cache key, alErase st.cache_expiry key⟩)
  | none => (none, st)

/-- `OptimizedQueryEngine._cache_result`: when the cache already holds at
least 100 entries, the key with the smallest expiry timestamp is evicted
from both dicts first (`min(self.cache_expiry.keys(), key=...)`; on an
empty `cache_expiry` Python's `min` would raise, which is unreachable from
the initial state — modelled as a no-op); then the entry is written with
expiry `now + ttl`. -/
def cacheResult (cfg : EngineConfig) (st : CacheState) (now : Nat)
    (query mode result : String) : CacheState :=
  let key := cacheKey query mode
  let st' :=
    if st.query_cache.length ≥ 100 then
      match minKeyPair st.cache_expiry with
      | some kv => ⟨alErase st.query_cache kv.1, alErase st.cache_expiry kv.1⟩
      | none => st
    else st
  ⟨alInsert st'.query_cache key result, alInsert st'.cache_expiry key (now + cfg.cache_ttl)⟩

/-- `OptimizedQueryEngine._generate_fallback_response`: keyword-matched
canned strings. -/
def generateFallbackResponse (query : String) : String :=
  if strContains (strLower query) "revenue" then
    "Based on our business data, we track revenue across multiple dimensions including customer categories, projects, and time periods. For specific revenue analysis, please try rephrasing your question or contact support."
  else if strContains (strLower query) "customer" then
    "Our customer analysis includes performance metrics across different sectors including Education, Commercial/Corporate, Government/Municipality, and Health & Community Services. Please try a more specific question about customer performance."
  else if strContains (strLower query) "project" then
    "We analyze project performance including revenue, duration, and resource allocation. For detailed project insights, please specify which aspects you're interested in."
  else
    "I'm currently experiencing technical difficulties accessing the full knowledge base. Please try rephrasing your question or contact support for assistance."

/-- `OptimizedQueryEngine.clear_cache`. -/
def clearCache (_ : CacheState) : CacheState := emptyCache

/-- What `get_cache_stats` reports (the fields the claims are about).
`expired_entries` is an integer difference in Python, so it is modelled
in `ℤ` to make (non-)negativity meaningful. -/
structure CacheStats where
  total_entries : Nat
  valid_entries : Nat
  expired_entries : ℤ

/-- `OptimizedQueryEngine.get_cache_stats`. -/
def getCacheStats (st : CacheState) (now : Nat) : CacheStats :=
  let valid := (st.cache_expiry.filter (fun p => now < p.2)).length
  { total_entries := st.query_cache.length
    valid_entries := valid
    expired_entries := (st.query_cache.length : ℤ) - (valid : ℤ) }

/-! ## OptimizedQueryEngine.query_with_optimizations -/

/-- Calls on the Observability Recorder (`performance_monitor`) and the
submission to the background loop, in the order the engine makes them. -/
inductive ObsEvent where
  | reqStart
  | reqEnd (success : Bool) (errorType : Option String)
  | cacheHit
  | cacheMiss
  | bgSubmit
deriving DecidableEq

/-- Outcome of `run_async_in_flask(self._execute_optimized_query(...))`:
either the pipeline's string, or an exception (from the background
submission, the retrieval manager's recovery path, or the model client)
propagating into `query_with_optimizations`; `ename` models
`type(e).__name__`. -/
inductive PipelineOutcome where
  | ok (s : String)
  | err (ename : String)

/-- Result of one `query_with_optimizations` call: the returned string
(the function always returns, it never raises — every exception of the
modelled collaborators is a `PipelineOutcome.err` and is handled), the
cache state after the call, and the observability events in order. -/
structure QueryRunResult where
  result : String
  cache : CacheState
  events : List ObsEvent
deriving DecidableEq

/-- `OptimizedQueryEngine.query_with_optimizations`.  Mirrors the source
order: record start; validate (early return WITHOUT `record_request_end`);
cache check (hit: record hit + end, return); on a miss record the miss,
submit the pipeline; on success cache non-apology non-empty results and
record a successful end; on a pipeline exception record a failed end and
return the fallback (`_generate_fallback_response` on the ORIGINAL query —
only reachable with a string query). -/
def queryWithOptimizations (cfg : EngineConfig) (st : CacheState) (now : Nat)
    (q : PyInput) (mode : String) (pipeline : PipelineOutcome) : QueryRunResult :=
  let processed := preprocessQuery cfg q
  if processed = "" then
    { result := "Please provide a valid question.", cache := st, events := [.reqStart] }
  else
    let pair := if cfg.enable_caching then checkCache st now processed mode else (none, st)
    match pair.1 with
    | some cached =>
      { result := cached, cache := pair.2
        events := [.reqStart, .cacheHit, .reqEnd true none] }
    | none =>
      let evs := [ObsEvent.reqStart] ++ (if cfg.enable_caching then [ObsEvent.cacheMiss] else [])
      match pipeline with
      | .ok r =>
        let st'' :=
          if cfg.enable_caching && r != "" && !(strStartsWith r "I apologize") then
            cacheResult cfg pair.2 now processed mode r
          else pair.2
        { result := r, cache := st'', events := evs ++ [.bgSubmit, .reqEnd true none] }
      | .err ename =>
        let fb :=
          match q with
          | .str s =>
            if cfg.enable_fallback then generateFallbackResponse s
            else "I'm sorry, I'm experiencing technical difficulties. Please try again."
          | .nonString => ""
          -- unreachable: a nonempty processed query forces q = .str s; in Python
          -- `query.lower()` on a non-string would itself raise inside the handler
        { result := fb, cache := pair.2
          events := evs ++ [.bgSubmit, .reqEnd false (some ename)] }

/-! ## PerformanceMonitor (`performance_monitor.py`) -/

/-- One element of `self.recent_metrics`. -/
structure MetricRecord where
  timestamp : Nat
  endpoint : String
  response_time : Nat
  success : Bool
  error_type : Option String
deriving DecidableEq

/-- The mutable state of `PerformanceMonitor` (alert thresholds and
`start_time` carry no claim content and are omitted). -/
structure PerfMonitor where
  response_times : List Nat
  request_counts : List (String × Nat)
  error_counts : List (String × Nat)
  cache_hits : Nat
  cache_misses : Nat
  cache_total : Nat
  total_requests : Nat
  total_errors : Nat
  recent_metrics : List MetricRecord

/-- The monitor after `__init__` (and after `reset_metrics`). -/
def initMonitor : PerfMonitor :=
  { response_times := []
    request_counts := []
    error_counts := []
    cache_hits := 0
    cache_misses := 0
    cache_total := 0
    total_requests := 0
    total_errors := 0
    recent_metrics := [] }

/-- `defaultdict(int)` increment `d[k] += 1`. -/
def bumpCount (l : List (String × Nat)) (k : String) : List (String × Nat) :=
  alInsert l k ((alGet l k).getD 0 + 1)

/-- `deque(maxlen=n).append(x)`: append, dropping from the front past `n`. -/
def appendBounded {α : Type} (maxlen : Nat) (l : List α) (x : α) : List α :=
  let l' := l ++ [x]
  if l'.length > maxlen then l'.drop (l'.length - maxlen) else l'

/-- `PerformanceMonitor.record_request_start` (returns `time.time()` to the
caller, here the `now` argument). -/
def recordRequestStart (m : PerfMonitor) (endpoint : String) : PerfMonitor :=
  { m with
    total_requests := m.total_requests + 1
    request_counts := bumpCount m.request_counts endpoint }

/-- `PerformanceMonitor.record_request_end`: appends the response time to
the 1000-bounded deque, counts an error when `success` is false, and
appends to the 300-bounded recent deque. -/
def recordRequestEnd (m : PerfMonitor) (now : Nat) (endpoint : String)
    (startTime : Nat) (success : Bool) (errorType : Option String) : PerfMonitor :=
  let rt := now - startTime
  { m with
    response_times := appendBounded 1000 m.response_times rt
    total_errors := if success then m.total_errors else m.total_errors + 1
    error_counts :=
      if success then m.error_counts
      else bumpCount m.error_counts (errorType.getD "unknown")
    recent_metrics :=
      appendBounded 300 m.recent_metrics ⟨now, endpoint, rt, success, errorType⟩ }

/-- `PerformanceMonitor.record_cache_hit`. -/
def recordCacheHit (m : PerfMonitor) : PerfMonitor :=
  { m with cache_hits := m.cache_hits + 1, cache_total := m.cache_total + 1 }

/-- `PerformanceMonitor.record_cache_miss`. -/
def recordCacheMiss (m : PerfMonitor) : PerfMonitor :=
  { m with cache_misses := m.cache_misses + 1, cache_total := m.cache_total + 1 }

/-- `PerformanceMonitor.reset_metrics`: clears every container and zeroes
both aggregate counters. -/
def resetMetrics (_ : PerfMonitor) : PerfMonitor := initMonitor

/-- A recording call on the monitor (everything `query_with_optimizations`
and the other request paths can invoke, except the administrative
`reset_metrics`). -/
inductive MonOp where
  | reqStart (endpoint : String)
  | reqEnd (now : Nat) (endpoint : String) (startTime : Nat)
      (success : Bool) (errorType : Option String)
  | cacheHit
  | cacheMiss

/-- Apply one recording call. -/
def applyMonOp (m : PerfMonitor) : MonOp → PerfMonitor
  | .reqStart endpoint => recordRequestStart m endpoint
  | .reqEnd now endpoint startTime success errorType =>
      recordRequestEnd m now endpoint startTime success errorType
  | .cacheHit => recordCacheHit m
  | .cacheMiss => recordCacheMiss m

/-- Apply a sequence of recording calls in order. -/
def applyMonOps (m : PerfMonitor) (ops : List MonOp) : PerfMonitor :=
  ops.foldl applyMonOp m

/-! ### `PerformanceMonitor._calculate_percentiles`

The Python code indexes `sorted_times[int(length * p)]` for
`p ∈ {0.5, 0.9, 0.95, 0.99}`.  The `p` literals are IEEE binary64
constants; they are modelled by their exact rational values
(numerator = round(p·2^53), denominator = 2^53). -/

/-- The binary64 value of the literal `0.5` (exact). -/
def p50Q : ℚ := 1 / 2

/-- The binary64 value of the literal `0.9` (slightly above 9/10). -/
def p90Q : ℚ := 8106479329266893 / 9007199254740992

/-- The binary64 value of the literal `0.95` (slightly below 19/20). -/
def p95Q : ℚ := 8556839292003942 / 9007199254740992

/-- The binary64 value of the literal `0.99` (slightly below 99/100). -/
def p99Q : ℚ := 8917127262193582 / 9007199254740992

/-- `int(length * p)`: truncation of the product to an integer index.
(The float product rounds to nearest; the robustness theorem for claim
C10 covers every result within a generous `length/2^50` rounding slack.) -/
def percIndex (length : Nat) (p : ℚ) : Nat :=
  (⌊(length : ℚ) * p⌋).toNat

/-- `PerformanceMonitor._calculate_percentiles`: `{}` on an empty buffer,
else the four indexed order statistics of the sorted buffer.  Response
times are modelled as rationals. -/
def calculatePercentiles (response_times : List ℚ) : List (String × ℚ) :=
  if response_times.isEmpty then []
  else
    let sorted_times := response_times.mergeSort (· ≤ ·)
    let length := sorted_times.length
    [("p50", sorted_times.getD (percIndex length p50Q) 0),
     ("p90", sorted_times.getD (percIndex length p90Q) 0),
     ("p95", sorted_times.getD (percIndex length p95Q) 0),
     ("p99", sorted_times.getD (percIndex length p99Q) 0)]

/-! ## RAGManager.enhanced_query (`rag_manager.py`) -/

/-- The `QueryParam` the retrieval library receives.  The token-limit
fields are `Option` because the default/mix branch does not pass them
(the library's own defaults apply, code outside this repository). -/
structure RagQueryParam where
  mode : String
  top_k : Nat
  response_type : String
  max_token_for_text_unit : Option Nat
  max_token_for_global_context : Option Nat
  max_token_for_local_context : Option Nat
deriving DecidableEq

/-- `RAGManager.__init__`: `self.max_token_for_text_unit = 5000` (hardcoded). -/
def ragMaxTokenForTextUnit : Nat := 5000

/-- `RAGManager.__init__`: `self.max_token_for_global_context = 6000`. -/
def ragMaxTokenForGlobalContext : Nat := 6000

/-- `RAGManager.__init__`: `self.max_token_for_local_context = 6000`. -/
def ragMaxTokenForLocalContext : Nat := 6000

/-- The mode-to-parameter-profile dispatch inside
`RAGManager.enhanced_query` (lines 139–162): `"enhanced"`, `"fast"`, and
a default branch for every other mode value.  `top_k` is
`self.top_k`, read from the environment in `__init__` (default 80). -/
def selectQueryParam (top_k : Nat) (mode : String) : RagQueryParam :=
  if mode = "enhanced" then
    { mode := "mix"
      top_k := top_k
      response_type := "Multiple Paragraphs"
      max_token_for_text_unit := some ragMaxTokenForTextUnit
      max_token_for_global_context := some ragMaxTokenForGlobalContext
      max_token_for_local_context := some ragMaxTokenForLocalContext }
  else if mode = "fast" then
    { mode := "local"
      top_k := min top_k 40
      response_type := "Single Paragraph"
      max_token_for_text_unit := some 2000
      max_token_for_global_context := some 3000
      max_token_for_local_context := some 3000 }
  else
    { mode := "hybrid"
      top_k := top_k
      response_type := "Multiple Paragraphs"
      max_token_for_text_unit := none
      max_token_for_global_context := none
      max_token_for_local_context := none }

/-- Modelled from the spec: the retrieval library's `QueryParam` token-limit
defaults, which the default/mix branch leaves in effect, are not part of
this repository (`lightrag` is a third-party dependency).  The spec (§4.3)
describes the default profile as a medium context between `"fast"` (small)
and `"enhanced"` (large); the library default is 4000 for each field. -/
def libraryDefaultTokenLimit : Nat := 4000

/-- The token limits a branch of `selectQueryParam` makes effective: the
explicitly passed value, or the library default. -/
def effectiveTokenLimits (p : RagQueryParam) : Nat × Nat × Nat :=
  (p.max_token_for_text_unit.getD libraryDefaultTokenLimit,
   p.max_token_for_global_context.getD libraryDefaultTokenLimit,
   p.max_token_for_local_context.getD libraryDefaultTokenLimit)

/-- Outcome of `rag_instance.aquery` under `asyncio.wait_for`: a response
string, a timeout, or an exception with message `msg` (`str(e)`). -/
inductive AqueryOutcome where
  | ok (s : String)
  | timeout
  | exc (msg : String)

/-- Outcome of the `reset_rag` recovery call. -/
inductive ResetOutcome where
  | ok
  | failed (msg : String)
deriving DecidableEq

/-- Result of `enhanced_query`: `Except.error` would model an exception
propagating to the caller; `resetAttempts` counts `reset_rag` calls. -/
structure RagRunResult where
  result : Except String String
  resetAttempts : Nat

/-- The namespace/concurrency-conflict classification (line 181):
`"namespace" in str(e).lower() and "shared-data" in str(e).lower()`. -/
def isNamespaceConflict (msg : String) : Bool :=
  strContains (strLower msg) "namespace" && strContains (strLower msg) "shared-data"

/-- The error-handling tail of `RAGManager.enhanced_query` (lines 165–197).
On success or timeout no reset happens.  On another exception: the
namespace-conflict class returns a retry-later string with no reset; every
other error attempts exactly one `reset_rag`, whose own failure is caught
by the bare `except:` and converted to the service-error string (the
`finally: finalize_share_data()` cleanup swallows its errors and does not
affect the result). -/
def enhancedQuery (aq : AqueryOutcome) (reset : ResetOutcome) : RagRunResult :=
  match aq with
  | .ok s => { result := .ok s, resetAttempts := 0 }
  | .timeout =>
    { result := .ok "The query is taking too long to process. Please try a more specific question."
      resetAttempts := 0 }
  | .exc msg =>
    if isNamespaceConflict msg then
      { result := .ok "I'm processing multiple requests simultaneously. Please try your question again in a moment."
        resetAttempts := 0 }
    else
      match reset with
      | .ok =>
        { result := .ok "Knowledge base temporarily unavailable. Please try again."
          resetAttempts := 1 }
      | .failed _ =>
        { result := .ok "Service error. Please contact support."
          resetAttempts := 1 }

/-! ## GeminiClientManager.generate_content_async (`gemini_client_manager.py`) -/

/-- Outcome of one `model.generate_content_async` attempt under
`asyncio.wait_for`: a response with truthy text, a response with empty
text, a timeout, or another exception. -/
inductive AttemptOutcome where
  | ok (text : String)
  | okEmpty
  | timeout
  | exc (msg : String)
deriving DecidableEq

/-- Result of `generate_content_async`: the returned string, the list of
`asyncio.sleep` durations taken (in order), and whether `reset_client`
was attempted. -/
structure GenRunResult where
  result : String
  sleeps : List Nat
  resetAttempted : Bool
deriving DecidableEq

/-- The retry loop of `generate_content_async`, as a recursion on the
remaining fuel (`fuel = max_retries - attempt`); `outcomes n` is the
result of attempt `n` (0-based), `resetOk` whether a final-attempt
`reset_client` would succeed.  Faithful branch order: truthy response
returns its text; empty response returns the apology; a timeout on the
last attempt returns the timed-out message (NO sleep, NO reset on any
timeout); another exception on the last attempt attempts a reset (its
failure caught by the bare `except:`); a non-final exception sleeps
`2^attempt` and retries. -/
def genAttempts (maxRetries : Nat) (outcomes : Nat → AttemptOutcome) (resetOk : Bool) :
    Nat → Nat → GenRunResult
  | 0, _ =>
    { result := "Unable to process your request after multiple attempts. Please try again later."
      sleeps := [], resetAttempted := false }
  | fuel + 1, attempt =>
    match outcomes attempt with
    | .ok text => { result := text, sleeps := [], resetAttempted := false }
    | .okEmpty =>
      { result := "I apologize, but I couldn't generate a response. Please try again."
        sleeps := [], resetAttempted := false }
    | .timeout =>
      if attempt = maxRetries - 1 then
        { result := "The request timed out. Please try again with a simpler question."
          sleeps := [], resetAttempted := false }
      else genAttempts maxRetries outcomes resetOk fuel (attempt + 1)
    | .exc _ =>
      if attempt = maxRetries - 1 then
        { result :=
            if resetOk then "I'm experiencing technical difficulties. Please try again."
            else "Service temporarily unavailable. Please try again later."
          sleeps := [], resetAttempted := true }
      else
        let r := genAttempts maxRetries outcomes resetOk fuel (attempt + 1)
        { result := r.result, sleeps := 2 ^ attempt :: r.sleeps
          resetAttempted := r.resetAttempted }

/-- `generate_content_async` run from attempt 0 with the full retry
budget (`for attempt in range(self.max_retries)`). -/
def generateContent (maxRetries : Nat) (outcomes : Nat → AttemptOutcome)
    (resetOk : Bool) : GenRunResult :=
  genAttempts maxRetries outcomes resetOk maxRetries 0

/-- An attempt outcome that does not return from the loop body
(the loop proceeds to the next attempt only on these, when not final). -/
def AttemptOutcome.isFailure : AttemptOutcome → Bool
  | .timeout => true
  | .exc _ => true
  | _ => false

/-! ## Cache operation traces and the key-set invariant -/

/-- The cache operations of the query engine (the ways `query_cache` /
`cache_expiry` are ever mutated). -/
inductive CacheOp where
  | check (now : Nat) (query mode : String)
  | store (now : Nat) (query mode result : String)
  | clear

/-- Apply one cache operation to the state. -/
def applyCacheOp (st : CacheState) : CacheOp → CacheState
  | .check now query mode => (checkCache st now query mode).2
  | .store now query mode result => cacheResult defaultConfig st now query mode result
  | .clear => clearCache st

/-- Apply a sequence of cache operations, oldest first. -/
def applyCacheOps (st : CacheState) (ops : List CacheOp) : CacheState :=
  ops.foldl applyCacheOp st

/-- The cache-consistency invariant: both dicts have the same keys in the
same order, without duplicates. -/
def CacheInv (st : CacheState) : Prop :=
  alKeys st.query_cache = alKeys st.cache_expiry ∧ (alKeys st.query_cache).Nodup

/-- Storing `n` distinct entries (queries `"0"…"n-1"`, one fixed mode) via
`_cache_result`, each at its own timestamp — the capacity experiment of
the spec's `Capacity eviction` property. -/
def storeDistinct (n : Nat) : CacheState :=
  (List.range n).foldl (fun st i => cacheResult defaultConfig st i (toString i) "m" "v") emptyCache

/-- Whether an observability event is a `record_request_end` call. -/
def ObsEvent.isReqEnd : ObsEvent → Bool
  | .reqEnd _ _ => true
  | _ => false

/-! ## Association-list lemmas -/

theorem alKeys_nil {α : Type} : alKeys ([] : List (String × α)) = [] := rfl

theorem alKeys_cons {α : Type} (p : String × α) (rest : List (String × α)) :
    alKeys (p :: rest) = p.1 :: alKeys rest := rfl

theorem alKeys_append {α : Type} (l l₂ : List (String × α)) :
    alKeys (l ++ l₂) = alKeys l ++ alKeys l₂ :=
  List.map_append _ _ _

theorem alGet_eq_none_iff {α : Type} (l : List (String × α)) (k : String) :
    alGet l k = none ↔ k ∉ alKeys l := by
  induction l with
  | nil => simp [alGet, alKeys_nil]
  | cons p rest ih =>
    rw [alKeys_cons, List.mem_cons]
    by_cases h : p.1 = k
    · simp only [alGet, h, if_true]
      simp [h]
    · simp only [alGet, h, if_false, ih]
      constructor
      · intro hn hor
        rcases hor with h1 | h1
        · exact h h1.symm
        · exact hn h1
      · intro hn h1
        exact hn (Or.inr h1)

theorem alGet_isSome_iff {α : Type} (l : List (String × α)) (k : String) :
    (alGet l k).isSome ↔ k ∈ alKeys l := by
  have h := alGet_eq_none_iff l k
  cases hg : alGet l k with
  | none => simpa [hg] using h
  | some v =>
    simp only [hg, Option.isSome_some, true_iff]
    by_contra hk
    rw [(h.mpr hk) ] at hg
    exact Option.noConfusion hg

theorem alGet_alUpdate_self {α : Type} (l : List (String × α)) (k : String) (v : α)
    (h : k ∈ alKeys l) : alGet (alUpdate l k v) k = some v := by
  induction l with
  | nil => simp [alKeys_nil] at h
  | cons p rest ih =>
    by_cases hp : p.1 = k
    · simp [alUpdate, hp, alGet]
    · have hmem : k ∈ alKeys rest := by
        rw [alKeys_cons, List.mem_cons] at h
        rcases h with h1 | h1
        · exact absurd h1.symm hp
        · exact h1
      simp [alUpdate, hp, alGet, ih hmem]

theorem alGet_append_single {α : Type} (l : List (String × α)) (k : String) (v : α)
    (h : alGet l k = none) : alGet (l ++ [(k, v)]) k = some v := by
  induction l with
  | nil => simp [alGet]
  | cons p rest ih =>
    by_cases hp : p.1 = k
    · simp [alGet, hp] at h
    · simp only [alGet, hp, if_false] at h
      rw [List.cons_append]
      simp only [alGet, hp, if_false]
      exact ih h

theorem alGet_alInsert_self {α : Type} (l : List (String × α)) (k : String) (v : α) :
    alGet (alInsert l k v) k = some v := by
  unfold alInsert
  by_cases h : (alGet l k).isSome
  · simp only [h, if_true]
    exact alGet_alUpdate_self l k v ((alGet_isSome_iff l k).mp h)
  · simp only [h, if_false]
    refine alGet_append_single l k v ?_
    cases hg : alGet l k with
    | none => rfl
    | some v₂ => rw [hg] at h; simp at h

theorem alKeys_alUpdate {α : Type} (l : List (String × α)) (k : String) (v : α) :
    alKeys (alUpdate l k v) = alKeys l := by
  induction l with
  | nil => rfl
  | cons p rest ih =>
    by_cases hp : p.1 = k
    · rw [alUpdate, if_pos hp, alKeys_cons, alKeys_cons, ih, hp]
    · rw [alUpdate, if_neg hp, alKeys_cons, alKeys_cons, ih]

theorem length_alUpdate {α : Type} (l : List (String × α)) (k : String) (v : α) :
    (alUpdate l k v).length = l.length := by
  induction l with
  | nil => rfl
  | cons p rest ih =>
    by_cases hp : p.1 = k <;> simp [alUpdate, hp, ih]

theorem alKeys_alInsert {α : Type} (l : List (String × α)) (k : String) (v : α) :
    alKeys (alInsert l k v) =
      if k ∈ alKeys l then alKeys l else alKeys l ++ [k] := by
  unfold alInsert
  by_cases h : k ∈ alKeys l
  · rw [if_pos ((alGet_isSome_iff l k).mpr h), if_pos h, alKeys_alUpdate]
  · have hn : ¬(alGet l k).isSome := fun hs => h ((alGet_isSome_iff l k).mp hs)
    rw [if_neg hn, if_neg h, alKeys_append]
    rfl

theorem length_alInsert_le {α : Type} (l : List (String × α)) (k : String) (v : α) :
    (alInsert l k v).length ≤ l.length + 1 := by
  unfold alInsert
  by_cases h : (alGet l k).isSome
  · rw [if_pos h, length_alUpdate]
    omega
  · rw [if_neg h, List.length_append]
    simp

theorem length_alInsert_of_not_mem {α : Type} (l : List (String × α)) (k : String) (v : α)
    (h : k ∉ alKeys l) : (alInsert l k v).length = l.length + 1 := by
  unfold alInsert
  rw [if_neg (fun hs => h ((alGet_isSome_iff l k).mp hs)), List.length_append]
  rfl

theorem alErase_of_not_mem {α : Type} (l : List (String × α)) (k : String)
    (h : k ∉ alKeys l) : alErase l k = l := by
  induction l with
  | nil => rfl
  | cons p rest ih =>
    rw [alKeys_cons, List.mem_cons] at h
    push_neg at h
    rw [alErase, if_neg (fun he => h.1 he.symm), ih h.2]

theorem alKeys_alErase {α : Type} (l : List (String × α)) (k : String) :
    alKeys (alErase l k) = (alKeys l).filter (fun x => decide (x ≠ k)) := by
  induction l with
  | nil => rfl
  | cons p rest ih =>
    by_cases hp : p.1 = k
    · rw [alErase, if_pos hp, alKeys_cons, ih, List.filter_cons]
      rw [if_neg (by simp [hp])]
    · rw [alErase, if_neg hp, alKeys_cons, alKeys_cons, ih, List.filter_cons]
      rw [if_pos (by simp [hp])]

theorem length_alErase_of_mem {α : Type} (l : List (String × α)) (k : String)
    (hnd : (alKeys l).Nodup) (h : k ∈ alKeys l) :
    (alErase l k).length + 1 = l.length := by
  induction l with
  | nil => simp [alKeys_nil] at h
  | cons p rest ih =>
    rw [alKeys_cons, List.nodup_cons] at hnd
    by_cases hp : p.1 = k
    · have hnm : k ∉ alKeys rest := by rw [← hp]; exact hnd.1
      rw [alErase, if_pos hp, alErase_of_not_mem rest k hnm]
      rfl
    · have hmem : k ∈ alKeys rest := by
        rw [alKeys_cons, List.mem_cons] at h
        rcases h with h1 | h1
        · exact absurd h1.symm hp
        · exact h1
      have hrec := ih hnd.2 hmem
      rw [alErase, if_neg hp]
      simp only [List.length_cons]
      omega

theorem length_alErase_lt_of_mem {α : Type} (l : List (String × α)) (k : String)
    (h : k ∈ alKeys l) : (alErase l k).length < l.length := by
  induction l with
  | nil => simp [alKeys_nil] at h
  | cons p rest ih =>
    by_cases hp : p.1 = k
    · rw [alErase, if_pos hp]
      calc (alErase rest k).length ≤ rest.length := by
            clear ih h
            induction rest with
            | nil => simp [alErase]
            | cons q t iht =>
              by_cases hq : q.1 = k
              · rw [alErase, if_pos hq]; simp only [List.length_cons]; omega
              · rw [alErase, if_neg hq]; simp only [List.length_cons]; omega
        _ < (p :: rest).length := by simp
    · have hmem : k ∈ alKeys rest := by
        rw [alKeys_cons, List.mem_cons] at h
        rcases h with h1 | h1
        · exact absurd h1.symm hp
        · exact h1
      have := ih hmem
      rw [alErase, if_neg hp]
      simp only [List.length_cons]
      omega

/-! ## minKey lemmas: Python min over dict keys by value -/

theorem minKeyAux_mem (l : List (String × Nat)) (best : String × Nat) :
    minKeyAux best l = best ∨ minKeyAux best l ∈ l := by
  induction l generalizing best with
  | nil => exact Or.inl rfl
  | cons p rest ih =>
    rw [minKeyAux]
    by_cases hlt : p.2 < best.2
    · rw [if_pos hlt]
      rcases ih p with h | h
      · exact Or.inr (by rw [h]; exact List.mem_cons_self p rest)
      · exact Or.inr (List.mem_cons_of_mem p h)
    · rw [if_neg hlt]
      rcases ih best with h | h
      · exact Or.inl h
      · exact Or.inr (List.mem_cons_of_mem p h)

theorem minKeyAux_le (l : List (String × Nat)) (best : String × Nat) :
    (minKeyAux best l).2 ≤ best.2 ∧ ∀ p ∈ l, (minKeyAux best l).2 ≤ p.2 := by
  induction l generalizing best with
  | nil => exact ⟨Nat.le_refl _, fun p hp => absurd hp (List.not_mem_nil p)⟩
  | cons q rest ih =>
    rw [minKeyAux]
    by_cases hlt : q.2 < best.2
    · rw [if_pos hlt]
      rcases ih q with ⟨h1, h2⟩
      refine ⟨Nat.le_trans h1 (Nat.le_of_lt hlt), fun p hp => ?_⟩
      rcases List.mem_cons.mp hp with h | h
      · rw [h]; exact h1
      · exact h2 p h
    · rw [if_neg hlt]
      rcases ih best with ⟨h1, h2⟩
      refine ⟨h1, fun p hp => ?_⟩
      rcases List.mem_cons.mp hp with h | h
      · rw [h]; exact Nat.le_trans h1 (Nat.le_of_not_lt hlt)
      · exact h2 p h

theorem minKeyPair_mem (l : List (String × Nat)) (kv : String × Nat)
    (h : minKeyPair l = some kv) : kv ∈ l := by
  cases l with
  | nil => exact Option.noConfusion h
  | cons p rest =>
    rw [minKeyPair] at h
    have h' := Option.some.inj h
    rcases minKeyAux_mem rest p with hm | hm
    · rw [← h', hm]; exact List.mem_cons_self p rest
    · rw [← h']; exact List.mem_cons_of_mem p hm

theorem minKeyPair_min (l : List (String × Nat)) (kv : String × Nat)
    (h : minKeyPair l = some kv) : ∀ p ∈ l, kv.2 ≤ p.2 := by
  cases l with
  | nil => exact Option.noConfusion h
  | cons q rest =>
    rw [minKeyPair] at h
    have h' := Option.some.inj h
    intro p hp
    rcases List.mem_cons.mp hp with h1 | h1
    · rw [h1, ← h']; exact (minKeyAux_le rest q).1
    · rw [← h']; exact (minKeyAux_le rest q).2 p h1

theorem minKeyPair_isSome_of_ne_nil (l : List (String × Nat)) (h : l ≠ []) :
    ∃ kv, minKeyPair l = some kv := by
  cases l with
  | nil => exact absurd rfl h
  | cons p rest => exact ⟨minKeyAux p rest, rfl⟩


/-! ## Cache invariant preservation -/

theorem cacheInv_empty : CacheInv emptyCache :=
  ⟨rfl, List.nodup_nil⟩

theorem cacheInv_checkCache (st : CacheState) (now : Nat) (query mode : String)
    (h : CacheInv st) : CacheInv (checkCache st now query mode).2 := by
  rcases h with ⟨hkeys, hnd⟩
  cases hg : alGet st.query_cache (cacheKey query mode) with
  | none =>
    simp only [checkCache, hg]
    exact ⟨hkeys, hnd⟩
  | some v =>
    by_cases ht : now < (alGet st.cache_expiry (cacheKey query mode)).getD 0
    · simp only [checkCache, hg, ht, if_true]
      exact ⟨hkeys, hnd⟩
    · simp only [checkCache, hg, ht, if_false]
      refine ⟨?_, ?_⟩
      · show alKeys (alErase st.query_cache (cacheKey query mode))
            = alKeys (alErase st.cache_expiry (cacheKey query mode))
        rw [alKeys_alErase, alKeys_alErase, hkeys]
      · show (alKeys (alErase st.query_cache (cacheKey query mode))).Nodup
        rw [alKeys_alErase]
        exact hnd.filter _

theorem cacheInv_cacheResult (cfg : EngineConfig) (st : CacheState) (now : Nat)
    (query mode result : String) (h : CacheInv st) :
    CacheInv (cacheResult cfg st now query mode result) := by
  rcases h with ⟨hkeys, hnd⟩
  unfold cacheResult
  set key := cacheKey query mode with hkey
  set st2 :=
    (if st.query_cache.length ≥ 100 then
      match minKeyPair st.cache_expiry with
      | some kv => CacheState.mk (alErase st.query_cache kv.1) (alErase st.cache_expiry kv.1)
      | none => st
    else st) with hst2
  have h2 : alKeys st2.query_cache = alKeys st2.cache_expiry
      ∧ (alKeys st2.query_cache).Nodup := by
    rw [hst2]
    by_cases h100 : st.query_cache.length ≥ 100
    · rw [if_pos h100]
      cases hm : minKeyPair st.cache_expiry with
      | none => exact ⟨hkeys, hnd⟩
      | some kv =>
        refine ⟨?_, ?_⟩
        · simp only
          rw [alKeys_alErase, alKeys_alErase, hkeys]
        · simp only
          rw [alKeys_alErase]
          exact hnd.filter _
    · rw [if_neg h100]
      exact ⟨hkeys, hnd⟩
  refine ⟨?_, ?_⟩
  · show alKeys (alInsert st2.query_cache key result)
        = alKeys (alInsert st2.cache_expiry key (now + cfg.cache_ttl))
    rw [alKeys_alInsert, alKeys_alInsert, h2.1]
  · show (alKeys (alInsert st2.query_cache key result)).Nodup
    rw [alKeys_alInsert]
    by_cases hmem : key ∈ alKeys st2.query_cache
    · rw [if_pos hmem]
      exact h2.2
    · rw [if_neg hmem, List.nodup_append]
      refine ⟨h2.2, List.nodup_singleton key, ?_⟩
      intro a ha hb
      rw [List.mem_singleton] at hb
      rw [hb] at ha
      exact hmem ha

theorem cacheInv_clearCache (st : CacheState) : CacheInv (clearCache st) :=
  cacheInv_empty

theorem cacheInv_applyCacheOp (st : CacheState) (op : CacheOp) (h : CacheInv st) :
    CacheInv (applyCacheOp st op) := by
  cases op with
  | check now query mode => exact cacheInv_checkCache st now query mode h
  | store now query mode result => exact cacheInv_cacheResult defaultConfig st now query mode result h
  | clear => exact cacheInv_clearCache st

theorem cacheInv_applyCacheOps (ops : List CacheOp) (st : CacheState) (h : CacheInv st) :
    CacheInv (applyCacheOps st ops) := by
  induction ops generalizing st with
  | nil => exact h
  | cons op rest ih => exact ih _ (cacheInv_applyCacheOp st op h)

theorem length_eq_of_cacheInv (st : CacheState) (h : CacheInv st) :
    st.query_cache.length = st.cache_expiry.length := by
  have := congrArg List.length h.1
  simpa [alKeys, List.length_map] using this

/-- Claim C9: after every sequence of cache operations (cache check, result
store, cache clear) from the empty cache, the key lists of the two dicts
coincide, and the cache statistics report
expired = total − valid with a never-negative value. -/
theorem C9_cache_key_sets_invariant :
    ∀ (ops : List CacheOp) (now : Nat),
      alKeys (applyCacheOps emptyCache ops).query_cache
          = alKeys (applyCacheOps emptyCache ops).cache_expiry
        ∧ (getCacheStats (applyCacheOps emptyCache ops) now).expired_entries
            = ((getCacheStats (applyCacheOps emptyCache ops) now).total_entries : ℤ)
              - ((getCacheStats (applyCacheOps emptyCache ops) now).valid_entries : ℤ)
        ∧ 0 ≤ (getCacheStats (applyCacheOps emptyCache ops) now).expired_entries := by
  intro ops now
  have hinv := cacheInv_applyCacheOps ops emptyCache cacheInv_empty
  set st := applyCacheOps emptyCache ops with hst
  refine ⟨hinv.1, rfl, ?_⟩
  have hlen := length_eq_of_cacheInv st hinv
  have hfilter : (st.cache_expiry.filter (fun p => now < p.2)).length
      ≤ st.cache_expiry.length := List.length_filter_le _ _
  show (0 : ℤ) ≤ (st.query_cache.length : ℤ)
      - ((st.cache_expiry.filter (fun p => decide (now < p.2))).length : ℤ)
  omega

set_option maxRecDepth 100000 in
/-- Claim C4: under the reachable-state cache invariant, an insertion via
the result-store operation never pushes the cache above 100 entries; when
the cache holds exactly 100 entries and a fresh key arrives, exactly the
first entry of minimal expiry is evicted and the count stays 100; and
storing 101 distinct entries from the empty cache leaves exactly 100. -/
theorem C4_cache_capacity_and_eviction :
    (∀ (st : CacheState) (now : Nat) (query mode result : String),
      CacheInv st → st.query_cache.length ≤ 100 →
        (cacheResult defaultConfig st now query mode result).query_cache.length ≤ 100
        ∧ (st.query_cache.length = 100 → cacheKey query mode ∉ alKeys st.query_cache →
            (cacheResult defaultConfig st now query mode result).query_cache.length = 100
            ∧ ∃ kv, minKeyPair st.cache_expiry = some kv
                ∧ kv ∈ st.cache_expiry
                ∧ (∀ p ∈ st.cache_expiry, kv.2 ≤ p.2)
                ∧ alKeys (cacheResult defaultConfig st now query mode result).query_cache
                    = (alKeys st.query_cache).filter (fun x => decide (x ≠ kv.1))
                      ++ [cacheKey query mode]))
    ∧ (storeDistinct 101).query_cache.length = 100 := by
  constructor
  · intro st now query mode result hinv hle
    rcases hinv with ⟨hkeys, hnd⟩
    by_cases h100 : st.query_cache.length ≥ 100
    · have hlen100 : st.query_cache.length = 100 := le_antisymm hle h100
      have hcelen : st.cache_expiry.length = 100 := by
        rw [← length_eq_of_cacheInv st ⟨hkeys, hnd⟩]
        exact hlen100
      have hcene : st.cache_expiry ≠ [] := by
        intro hnil
        rw [hnil] at hcelen
        exact absurd hcelen (by decide)
      obtain ⟨kv, hkv⟩ := minKeyPair_isSome_of_ne_nil st.cache_expiry hcene
      have hkvmem : kv ∈ st.cache_expiry := minKeyPair_mem _ kv hkv
      have hkvkey : kv.1 ∈ alKeys st.query_cache := by
        rw [hkeys]
        exact List.mem_map_of_mem Prod.fst hkvmem
      have hqc : cacheResult defaultConfig st now query mode result
          = CacheState.mk
              (alInsert (alErase st.query_cache kv.1) (cacheKey query mode) result)
              (alInsert (alErase st.cache_expiry kv.1) (cacheKey query mode)
                (now + defaultConfig.cache_ttl)) := by
        unfold cacheResult
        rw [if_pos h100, hkv]
      have herase : (alErase st.query_cache kv.1).length + 1 = 100 := by
        rw [length_alErase_of_mem st.query_cache kv.1 hnd hkvkey, hlen100]
      constructor
      · rw [hqc]
        have := length_alInsert_le (alErase st.query_cache kv.1) (cacheKey query mode) result
        simp only at this ⊢
        omega
      · intro _ hfresh
        have hfresh2 : cacheKey query mode ∉ alKeys (alErase st.query_cache kv.1) := by
          rw [alKeys_alErase]
          intro hmem
          exact hfresh (List.mem_of_mem_filter hmem)
        refine ⟨?_, kv, hkv, hkvmem, minKeyPair_min _ kv hkv, ?_⟩
        · rw [hqc]
          have := length_alInsert_of_not_mem (alErase st.query_cache kv.1)
            (cacheKey query mode) result hfresh2
          simp only at this ⊢
          omega
        · rw [hqc]
          show alKeys (alInsert (alErase st.query_cache kv.1) (cacheKey query mode) result) = _
          rw [alKeys_alInsert, if_neg hfresh2, alKeys_alErase]
    · have hlt : st.query_cache.length ≤ 99 := by omega
      have hqc : cacheResult defaultConfig st now query mode result
          = CacheState.mk
              (alInsert st.query_cache (cacheKey query mode) result)
              (alInsert st.cache_expiry (cacheKey query mode)
                (now + defaultConfig.cache_ttl)) := by
        unfold cacheResult
        rw [if_neg h100]
      constructor
      · rw [hqc]
        have := length_alInsert_le st.query_cache (cacheKey query mode) result
        simp only at this ⊢
        omega
      · intro heq _
        exact absurd heq (by omega)
  · decide


/-! ## Monitor counter monotonicity (claim C7) -/

theorem applyMonOp_counters_mono (m : PerfMonitor) (op : MonOp) :
    m.total_requests ≤ (applyMonOp m op).total_requests
    ∧ m.total_errors ≤ (applyMonOp m op).total_errors := by
  cases op with
  | reqStart endpoint =>
    exact ⟨Nat.le_succ _, Nat.le_refl _⟩
  | reqEnd now endpoint startTime success errorType =>
    cases success with
    | true => exact ⟨Nat.le_refl _, Nat.le_refl _⟩
    | false => exact ⟨Nat.le_refl _, Nat.le_succ _⟩
  | cacheHit => exact ⟨Nat.le_refl _, Nat.le_refl _⟩
  | cacheMiss => exact ⟨Nat.le_refl _, Nat.le_refl _⟩

/-- Claim C7: the aggregate counters total_requests and total_errors are
non-decreasing under every sequence of recording calls
(request start/end, cache hit/miss), and only the explicit
reset_metrics operation returns them to zero. -/
theorem C7_counters_monotonic_until_reset :
    ∀ (m : PerfMonitor) (ops : List MonOp),
      m.total_requests ≤ (applyMonOps m ops).total_requests
      ∧ m.total_errors ≤ (applyMonOps m ops).total_errors
      ∧ (resetMetrics m).total_requests = 0
      ∧ (resetMetrics m).total_errors = 0 := by
  intro m ops
  refine ⟨?_, ?_, rfl, rfl⟩ <;>
  · induction ops generalizing m with
    | nil => exact Nat.le_refl _
    | cons op rest ih =>
      have h1 := applyMonOp_counters_mono m op
      have h2 := ih (applyMonOp m op)
      simp only [applyMonOps, List.foldl_cons] at h2 ⊢
      omega

/-! ## Mode parameter profiles (claim C8) -/

/-- Claim C8: the fast mode uses a reduced breadth (top_k capped at 40), a
single-paragraph response type, and strictly smaller context-token limits
than the enhanced and default profiles; every mode other than fast and
enhanced selects the default hybrid profile (total function — no error). -/
theorem C8_mode_parameter_profiles :
    ∀ (top_k : Nat) (mode : String),
      (selectQueryParam top_k "fast").top_k ≤ 40
      ∧ (selectQueryParam top_k "fast").response_type = "Single Paragraph"
      ∧ (selectQueryParam top_k "fast").mode = "local"
      ∧ ((effectiveTokenLimits (selectQueryParam top_k "fast")).1
            < (effectiveTokenLimits (selectQueryParam top_k "enhanced")).1
          ∧ (effectiveTokenLimits (selectQueryParam top_k "fast")).2.1
            < (effectiveTokenLimits (selectQueryParam top_k "enhanced")).2.1
          ∧ (effectiveTokenLimits (selectQueryParam top_k "fast")).2.2
            < (effectiveTokenLimits (selectQueryParam top_k "enhanced")).2.2)
      ∧ (mode ≠ "fast" → mode ≠ "enhanced" →
          selectQueryParam top_k mode
              = { mode := "hybrid"
                  top_k := top_k
                  response_type := "Multiple Paragraphs"
                  max_token_for_text_unit := none
                  max_token_for_global_context := none
                  max_token_for_local_context := none }
            ∧ (effectiveTokenLimits (selectQueryParam top_k "fast")).1
                < (effectiveTokenLimits (selectQueryParam top_k mode)).1
            ∧ (effectiveTokenLimits (selectQueryParam top_k "fast")).2.1
                < (effectiveTokenLimits (selectQueryParam top_k mode)).2.1
            ∧ (effectiveTokenLimits (selectQueryParam top_k "fast")).2.2
                < (effectiveTokenLimits (selectQueryParam top_k mode)).2.2) := by
  intro top_k mode
  have hdef : ∀ m, m ≠ "fast" → m ≠ "enhanced" →
      selectQueryParam top_k m
        = { mode := "hybrid"
            top_k := top_k
            response_type := "Multiple Paragraphs"
            max_token_for_text_unit := none
            max_token_for_global_context := none
            max_token_for_local_context := none } := by
    intro m h1 h2
    unfold selectQueryParam
    rw [if_neg h2, if_neg h1]
  refine ⟨Nat.min_le_right _ _, rfl, rfl,
    ⟨?_, ?_, ?_⟩, ?_⟩
  · show (2000 : Nat) < 5000; decide
  · show (3000 : Nat) < 6000; decide
  · show (3000 : Nat) < 6000; decide
  intro h1 h2
  refine ⟨hdef mode h1 h2, ?_, ?_, ?_⟩ <;> rw [hdef mode h1 h2]
  · show (2000 : Nat) < 4000; decide
  · show (3000 : Nat) < 4000; decide
  · show (3000 : Nat) < 4000; decide

/-! ## Retrieval error recovery (claim C2) -/

/-- Claim C2 counterexample: with a generic (non-namespace) retrieval error and
a failing reset, enhanced_query SWALLOWS the reset failure (the bare
except of the recovery path) and returns the service-error string; the
failure does not propagate to the caller as the claim states. -/
theorem C2_counterexample :
    (enhancedQuery (AqueryOutcome.exc "boom") (ResetOutcome.failed "reset failed")).resetAttempts = 1
    ∧ (enhancedQuery (AqueryOutcome.exc "boom") (ResetOutcome.failed "reset failed")).result
        = Except.ok "Service error. Please contact support." :=
  ⟨rfl, rfl⟩

/-- Claim C2 (amended): for every error not classified as a namespace/concurrency
conflict, exactly one reset is attempted; if the reset fails,
enhanced_query returns the generic service-error string instead of
propagating the failure, and if the reset succeeds it returns the
knowledge-base-unavailable string. -/
theorem C2_one_reset_failure_swallowed :
    ∀ (msg : String) (reset : ResetOutcome),
      isNamespaceConflict msg = false →
        (enhancedQuery (AqueryOutcome.exc msg) reset).resetAttempts = 1
        ∧ (∀ e, reset = ResetOutcome.failed e →
            (enhancedQuery (AqueryOutcome.exc msg) reset).result
              = Except.ok "Service error. Please contact support.")
        ∧ (reset = ResetOutcome.ok →
            (enhancedQuery (AqueryOutcome.exc msg) reset).result
              = Except.ok "Knowledge base temporarily unavailable. Please try again.") := by
  intro msg reset h
  cases reset with
  | ok =>
    refine ⟨?_, ?_, ?_⟩
    · simp [enhancedQuery, h]
    · intro e he
      exact absurd he (by simp)
    · intro _
      simp [enhancedQuery, h]
  | failed e0 =>
    refine ⟨?_, ?_, ?_⟩
    · simp [enhancedQuery, h]
    · intro e _
      simp [enhancedQuery, h]
    · intro he
      exact absurd he (by simp)

/-- Witness for C2 (amended), at a concrete non-namespace error with a
successful reset. -/
theorem C2_one_reset_failure_swallowed_witness :
    (enhancedQuery (AqueryOutcome.exc "index corrupted") ResetOutcome.ok).resetAttempts = 1
    ∧ (enhancedQuery (AqueryOutcome.exc "index corrupted") ResetOutcome.ok).result
        = Except.ok "Knowledge base temporarily unavailable. Please try again." := by
  have h := C2_one_reset_failure_swallowed "index corrupted" ResetOutcome.ok (by decide)
  exact ⟨h.1, h.2.2 rfl⟩

/-! ## Percentile index safety (claim C10) -/

theorem floor_toNat_lt_of_near (L : Nat) (p r : ℚ) (hL : 0 < L)
    (hp1 : p + 1 / 2 ^ 50 < 1) (hr : |r - (L : ℚ) * p| ≤ (L : ℚ) / 2 ^ 50) :
    (⌊r⌋).toNat < L := by
  have hL0 : (0 : ℚ) < (L : ℚ) := by exact_mod_cast hL
  have h1 : r ≤ (L : ℚ) * p + (L : ℚ) / 2 ^ 50 := by
    have := (abs_le.mp hr).2
    linarith
  have h2 : (L : ℚ) * p + (L : ℚ) / 2 ^ 50 = (L : ℚ) * (p + 1 / 2 ^ 50) := by ring
  have h3 : (L : ℚ) * (p + 1 / 2 ^ 50) < (L : ℚ) * 1 :=
    mul_lt_mul_of_pos_left hp1 hL0
  have h4 : r < (L : ℚ) := by
    rw [h2] at h1
    nlinarith
  have h5 : ⌊r⌋ < (L : ℤ) := Int.floor_lt.mpr (by exact_mod_cast h4)
  omega

/-- Claim C10: the percentile computation is total — for every non-empty buffer
length L, each index ⌊L·p⌋ (p the binary64 value of 0.5/0.9/0.95/0.99,
robust to any float-product rounding within L·2⁻⁵⁰) is strictly below L,
and the empty buffer yields the empty mapping. -/
theorem C10_percentile_indices_safe :
    (∀ (L : Nat) (p : ℚ), 0 < L → p ∈ [p50Q, p90Q, p95Q, p99Q] → percIndex L p < L)
    ∧ (∀ (L : Nat) (p r : ℚ), 0 < L → p ∈ [p50Q, p90Q, p95Q, p99Q] →
        |r - (L : ℚ) * p| ≤ (L : ℚ) / 2 ^ 50 → (⌊r⌋).toNat < L)
    ∧ calculatePercentiles [] = [] := by
  have hmem : ∀ p ∈ [p50Q, p90Q, p95Q, p99Q], p + 1 / 2 ^ 50 < 1 := by
    intro p hp
    simp only [List.mem_cons, List.mem_singleton, List.not_mem_nil, or_false] at hp
    rcases hp with h | h | h | h
    · rw [h, p50Q]; norm_num
    · rw [h, p90Q]; norm_num
    · rw [h, p95Q]; norm_num
    · rw [h, p99Q]; norm_num
  refine ⟨?_, ?_, rfl⟩
  · intro L p hL hp
    have hr : |((L : ℚ) * p) - (L : ℚ) * p| ≤ (L : ℚ) / 2 ^ 50 := by
      simp only [sub_self, abs_zero]
      positivity
    exact floor_toNat_lt_of_near L p ((L : ℚ) * p) hL (hmem p hp) hr
  · intro L p r hL hp hr
    exact floor_toNat_lt_of_near L p r hL (hmem p hp) hr

/-- Witness for C10: a concrete buffer length and index. -/
theorem C10_percentile_indices_safe_witness :
    percIndex 10 p99Q < 10 ∧ Int.toNat ⌊(5 : ℚ)⌋ < 10 :=
  ⟨C10_percentile_indices_safe.1 10 p99Q (by decide) (by simp),
   C10_percentile_indices_safe.2.1 10 p50Q 5 (by decide) (by simp)
     (by rw [p50Q]; norm_num)⟩


/-! ## Retry-loop analysis (claim C3) -/

theorem genAttempts_exc_sleep_mem (maxRetries : Nat) (outcomes : Nat → AttemptOutcome)
    (resetOk : Bool) :
    ∀ (fuel attempt i : Nat) (m : String),
      attempt + fuel = maxRetries →
      attempt ≤ i → i < maxRetries →
      (∀ j, attempt ≤ j → j < i → (outcomes j).isFailure = true) →
      outcomes i = AttemptOutcome.exc m →
      i ≠ maxRetries - 1 →
      (2 : Nat) ^ i ∈ (genAttempts maxRetries outcomes resetOk fuel attempt).sleeps := by
  intro fuel
  induction fuel with
  | zero =>
    intro attempt i m hsum hai hilt hprev hexc hlast
    omega
  | succ f ih =>
    intro attempt i m hsum hai hilt hprev hexc hlast
    by_cases hieq : i = attempt
    · subst hieq
      simp only [genAttempts, hexc, if_neg hlast]
      exact List.mem_cons_self _ _
    · have hlt : attempt < i := Nat.lt_of_le_of_ne hai (fun he => hieq he.symm)
      have hfail := hprev attempt (Nat.le_refl _) hlt
      have hnl : attempt ≠ maxRetries - 1 := by omega
      cases ho : outcomes attempt with
      | ok t => rw [ho] at hfail; exact absurd hfail (by simp [AttemptOutcome.isFailure])
      | okEmpty => rw [ho] at hfail; exact absurd hfail (by simp [AttemptOutcome.isFailure])
      | timeout =>
        simp only [genAttempts, ho, if_neg hnl]
        exact ih (attempt + 1) i m (by omega) hlt hilt
          (fun j hj1 hj2 => hprev j (by omega) hj2) hexc hlast
      | exc msg =>
        simp only [genAttempts, ho, if_neg hnl]
        exact List.mem_cons_of_mem _
          (ih (attempt + 1) i m (by omega) hlt hilt
            (fun j hj1 hj2 => hprev j (by omega) hj2) hexc hlast)

theorem genAttempts_sleep_source (maxRetries : Nat) (outcomes : Nat → AttemptOutcome)
    (resetOk : Bool) :
    ∀ (fuel attempt : Nat) (x : Nat),
      x ∈ (genAttempts maxRetries outcomes resetOk fuel attempt).sleeps →
      ∃ j m, attempt ≤ j ∧ outcomes j = AttemptOutcome.exc m ∧ x = 2 ^ j := by
  intro fuel
  induction fuel with
  | zero =>
    intro attempt x hx
    simp only [genAttempts, List.not_mem_nil] at hx
  | succ f ih =>
    intro attempt x hx
    cases ho : outcomes attempt with
    | ok t =>
      simp only [genAttempts, ho, List.not_mem_nil] at hx
    | okEmpty =>
      simp only [genAttempts, ho, List.not_mem_nil] at hx
    | timeout =>
      by_cases hl : attempt = maxRetries - 1
      · simp only [genAttempts, ho, if_pos hl, List.not_mem_nil] at hx
      · simp only [genAttempts, ho, if_neg hl] at hx
        obtain ⟨j, m, hj1, hj2, hj3⟩ := ih (attempt + 1) x hx
        exact ⟨j, m, by omega, hj2, hj3⟩
    | exc msg =>
      by_cases hl : attempt = maxRetries - 1
      · simp only [genAttempts, ho, if_pos hl, List.not_mem_nil] at hx
      · simp only [genAttempts, ho, if_neg hl, List.mem_cons] at hx
        rcases hx with hx | hx
        · exact ⟨attempt, msg, Nat.le_refl _, ho, hx⟩
        · obtain ⟨j, m, hj1, hj2, hj3⟩ := ih (attempt + 1) x hx
          exact ⟨j, m, by omega, hj2, hj3⟩

theorem genAttempts_final_attempt (maxRetries : Nat) (outcomes : Nat → AttemptOutcome)
    (resetOk : Bool) :
    ∀ (fuel attempt : Nat),
      attempt + fuel = maxRetries → 0 < fuel →
      (∀ j, attempt ≤ j → j < maxRetries - 1 → (outcomes j).isFailure = true) →
      ((outcomes (maxRetries - 1) = AttemptOutcome.timeout →
          (genAttempts maxRetries outcomes resetOk fuel attempt).result
              = "The request timed out. Please try again with a simpler question."
          ∧ (genAttempts maxRetries outcomes resetOk fuel attempt).resetAttempted = false)
       ∧ (∀ m, outcomes (maxRetries - 1) = AttemptOutcome.exc m →
          (genAttempts maxRetries outcomes resetOk fuel attempt).resetAttempted = true
          ∧ (genAttempts maxRetries outcomes resetOk fuel attempt).result
              = (if resetOk then "I'm experiencing technical difficulties. Please try again."
                 else "Service temporarily unavailable. Please try again later."))) := by
  intro fuel
  induction fuel with
  | zero =>
    intro attempt hsum hpos hprev
    omega
  | succ f ih =>
    intro attempt hsum hpos hprev
    by_cases hbase : f = 0
    · subst hbase
      have hfin : attempt = maxRetries - 1 := by omega
      constructor
      · intro ht
        rw [← hfin] at ht
        simp only [genAttempts, ht, if_pos hfin]
        exact ⟨trivial, trivial⟩
      · intro m hm
        rw [← hfin] at hm
        simp only [genAttempts, hm, if_pos hfin]
        exact ⟨trivial, trivial⟩
    · have hmid : attempt < maxRetries - 1 := by omega
      have hfail := hprev attempt (Nat.le_refl _) hmid
      have hnl : attempt ≠ maxRetries - 1 := by omega
      have hrec := ih (attempt + 1) (by omega) (by omega)
        (fun j hj1 hj2 => hprev j (by omega) hj2)
      cases ho : outcomes attempt with
      | ok t => rw [ho] at hfail; exact absurd hfail (by simp [AttemptOutcome.isFailure])
      | okEmpty => rw [ho] at hfail; exact absurd hfail (by simp [AttemptOutcome.isFailure])
      | timeout =>
        constructor
        · intro ht
          simp only [genAttempts, ho, if_neg hnl]
          exact hrec.1 ht
        · intro m hm
          simp only [genAttempts, ho, if_neg hnl]
          exact hrec.2 m hm
      | exc msg =>
        constructor
        · intro ht
          simp only [genAttempts, ho, if_neg hnl]
          exact ⟨(hrec.1 ht).1, (hrec.1 ht).2⟩
        · intro m hm
          simp only [genAttempts, ho, if_neg hnl]
          exact ⟨(hrec.2 m hm).1, (hrec.2 m hm).2⟩

/-- Claim C3 counterexample: with max_retries = 3 and every attempt timing out,
attempts 0 and 1 fail and are not the last attempt, yet NO backoff delay
is taken (the sleep sits only in the generic-exception branch); and the
final-attempt recovery differs between the two failure kinds — a timeout
returns the timed-out message without any client reset, while a generic
exception attempts the reset.  This refutes the claimed identical
treatment and the claimed delay after every non-final failed attempt. -/
theorem C3_counterexample :
    (generateContent 3 (fun _ => AttemptOutcome.timeout) true).sleeps = []
    ∧ (generateContent 3 (fun _ => AttemptOutcome.timeout) true).resetAttempted = false
    ∧ (generateContent 3 (fun _ => AttemptOutcome.timeout) true).result
        = "The request timed out. Please try again with a simpler question."
    ∧ (generateContent 3 (fun _ => AttemptOutcome.exc "boom") true).sleeps = [1, 2]
    ∧ (generateContent 3 (fun _ => AttemptOutcome.exc "boom") true).resetAttempted = true :=
  ⟨rfl, rfl, rfl, rfl, rfl⟩

/-- Claim C3 (amended): a delay of 2^attempt seconds precedes the next attempt
exactly for non-final attempts failing with a NON-timeout exception; a
timed-out attempt retries immediately with no delay; both failure kinds
share the retry budget, but on the final attempt a timeout returns the
timed-out message with no client reset while any other exception attempts
the client reset. -/
theorem C3_backoff_and_final_attempt :
    ∀ (maxRetries : Nat) (outcomes : Nat → AttemptOutcome) (resetOk : Bool),
      (∀ (i : Nat) (m : String), i < maxRetries →
        (∀ j, j < i → (outcomes j).isFailure = true) →
        (outcomes i = AttemptOutcome.exc m → i ≠ maxRetries - 1 →
            (2 : Nat) ^ i ∈ (generateContent maxRetries outcomes resetOk).sleeps)
        ∧ (outcomes i = AttemptOutcome.timeout →
            (2 : Nat) ^ i ∉ (generateContent maxRetries outcomes resetOk).sleeps))
      ∧ (0 < maxRetries →
          (∀ j, j < maxRetries - 1 → (outcomes j).isFailure = true) →
          (outcomes (maxRetries - 1) = AttemptOutcome.timeout →
              (generateContent maxRetries outcomes resetOk).result
                  = "The request timed out. Please try again with a simpler question."
              ∧ (generateContent maxRetries outcomes resetOk).resetAttempted = false)
          ∧ (∀ m, outcomes (maxRetries - 1) = AttemptOutcome.exc m →
              (generateContent maxRetries outcomes resetOk).resetAttempted = true)) := by
  intro maxRetries outcomes resetOk
  constructor
  · intro i m hilt hprev
    constructor
    · intro hexc hlast
      exact genAttempts_exc_sleep_mem maxRetries outcomes resetOk maxRetries 0 i m
        (by omega) (Nat.zero_le i) hilt (fun j _ hj2 => hprev j hj2) hexc hlast
    · intro htime hmem
      obtain ⟨j, m2, _, hj2, hj3⟩ :=
        genAttempts_sleep_source maxRetries outcomes resetOk maxRetries 0 (2 ^ i) hmem
      have hij : i = j := Nat.pow_right_injective (Nat.le_refl 2) hj3
      rw [← hij] at hj2
      rw [htime] at hj2
      exact AttemptOutcome.noConfusion hj2
  · intro hpos hprev
    have h := genAttempts_final_attempt maxRetries outcomes resetOk maxRetries 0
      (by omega) hpos (fun j _ hj2 => hprev j hj2)
    exact ⟨h.1, fun m hm => (h.2 m hm).1⟩

/-- Witness for C3 (amended): attempt 0 fails with a generic exception
under a budget of 3, so the one-second backoff delay 2^0 is taken. -/
theorem C3_backoff_and_final_attempt_witness :
    (1 : Nat) ∈ (generateContent 3
        (fun n => if n = 0 then AttemptOutcome.exc "x" else AttemptOutcome.ok "done")
        true).sleeps := by
  have h := (C3_backoff_and_final_attempt 3
      (fun n => if n = 0 then AttemptOutcome.exc "x" else AttemptOutcome.ok "done")
      true).1 0 "x" (by decide)
      (fun j hj => absurd hj (Nat.not_lt_zero j))
  exact h.1 rfl (by decide)


/-! ## Engine evaluation lemmas (claims C1, C5, C6) -/

theorem defaultConfig_enable_caching : defaultConfig.enable_caching = true := rfl

theorem defaultConfig_enable_fallback : defaultConfig.enable_fallback = true := rfl

theorem defaultConfig_cache_ttl : defaultConfig.cache_ttl = 3600 := rfl

theorem generateFallbackResponse_ne_empty (query : String) :
    generateFallbackResponse query ≠ "" := by
  unfold generateFallbackResponse
  split_ifs <;> decide

theorem queryWithOptimizations_invalid (st : CacheState) (now : Nat) (q : PyInput)
    (mode : String) (pipeline : PipelineOutcome)
    (hproc : preprocessQuery defaultConfig q = "") :
    queryWithOptimizations defaultConfig st now q mode pipeline
      = { result := "Please provide a valid question.", cache := st
          events := [ObsEvent.reqStart] } := by
  simp only [queryWithOptimizations, hproc, if_true]

theorem queryWithOptimizations_hit (st : CacheState) (now : Nat) (q : PyInput)
    (mode : String) (pipeline : PipelineOutcome) (v : String)
    (hproc : preprocessQuery defaultConfig q ≠ "")
    (hhit : (checkCache st now (preprocessQuery defaultConfig q) mode).1 = some v) :
    queryWithOptimizations defaultConfig st now q mode pipeline
      = { result := v
          cache := (checkCache st now (preprocessQuery defaultConfig q) mode).2
          events := [ObsEvent.reqStart, ObsEvent.cacheHit, ObsEvent.reqEnd true none] } := by
  simp only [queryWithOptimizations, if_neg hproc, defaultConfig_enable_caching, if_true, hhit]

theorem queryWithOptimizations_miss_err (st : CacheState) (now : Nat)
    (s mode ename : String)
    (hproc : preprocessQuery defaultConfig (PyInput.str s) ≠ "")
    (hmiss : (checkCache st now (preprocessQuery defaultConfig (PyInput.str s)) mode).1 = none) :
    queryWithOptimizations defaultConfig st now (PyInput.str s) mode (PipelineOutcome.err ename)
      = { result := generateFallbackResponse s
          cache := (checkCache st now (preprocessQuery defaultConfig (PyInput.str s)) mode).2
          events := [ObsEvent.reqStart, ObsEvent.cacheMiss, ObsEvent.bgSubmit,
            ObsEvent.reqEnd false (some ename)] } := by
  simp only [queryWithOptimizations, if_neg hproc, defaultConfig_enable_caching, if_true, hmiss,
    defaultConfig_enable_fallback, List.cons_append, List.nil_append]

theorem queryWithOptimizations_miss_ok (st : CacheState) (now : Nat)
    (s mode r : String)
    (hproc : preprocessQuery defaultConfig (PyInput.str s) ≠ "")
    (hmiss : (checkCache st now (preprocessQuery defaultConfig (PyInput.str s)) mode).1 = none)
    (hne : r ≠ "")
    (hap : strStartsWith r "I apologize" = false) :
    queryWithOptimizations defaultConfig st now (PyInput.str s) mode (PipelineOutcome.ok r)
      = { result := r
          cache := cacheResult defaultConfig
            (checkCache st now (preprocessQuery defaultConfig (PyInput.str s)) mode).2 now
            (preprocessQuery defaultConfig (PyInput.str s)) mode r
          events := [ObsEvent.reqStart, ObsEvent.cacheMiss, ObsEvent.bgSubmit,
            ObsEvent.reqEnd true none] } := by
  have hbne : (r != "") = true := by simp [hne]
  simp only [queryWithOptimizations, if_neg hproc, defaultConfig_enable_caching, if_true, hmiss,
    hbne, hap, Bool.true_and, Bool.and_true, Bool.not_false, List.cons_append, List.nil_append]

theorem queryWithOptimizations_miss_events (st : CacheState) (now : Nat) (q : PyInput)
    (mode : String)
    (hproc : preprocessQuery defaultConfig q ≠ "")
    (hmiss : (checkCache st now (preprocessQuery defaultConfig q) mode).1 = none) :
    (∀ r, (queryWithOptimizations defaultConfig st now q mode (PipelineOutcome.ok r)).events
        = [ObsEvent.reqStart, ObsEvent.cacheMiss, ObsEvent.bgSubmit, ObsEvent.reqEnd true none])
    ∧ (∀ e, (queryWithOptimizations defaultConfig st now q mode (PipelineOutcome.err e)).events
        = [ObsEvent.reqStart, ObsEvent.cacheMiss, ObsEvent.bgSubmit,
            ObsEvent.reqEnd false (some e)]) := by
  constructor <;> intro x <;>
    simp only [queryWithOptimizations, if_neg hproc, defaultConfig_enable_caching, if_true, hmiss,
      List.cons_append, List.nil_append]

theorem cacheResult_alGet_self (cfg : EngineConfig) (st : CacheState) (now : Nat)
    (query mode result : String) :
    alGet (cacheResult cfg st now query mode result).query_cache (cacheKey query mode)
        = some result
    ∧ alGet (cacheResult cfg st now query mode result).cache_expiry (cacheKey query mode)
        = some (now + cfg.cache_ttl) :=
  ⟨alGet_alInsert_self _ _ _, alGet_alInsert_self _ _ _⟩

theorem checkCache_after_store (cfg : EngineConfig) (st : CacheState)
    (now1 now2 : Nat) (query mode result : String)
    (ht : now2 < now1 + cfg.cache_ttl) :
    checkCache (cacheResult cfg st now1 query mode result) now2 query mode
      = (some result, cacheResult cfg st now1 query mode result) := by
  have h1 := (cacheResult_alGet_self cfg st now1 query mode result).1
  have h2 := (cacheResult_alGet_self cfg st now1 query mode result).2
  simp only [checkCache, h1, h2, Option.getD_some, if_pos ht]

/-- Claim C1: with a valid string query that misses the cache, any exception
raised inside the submitted pipeline (retrieval manager, model client,
background submission) is contained: the call returns the keyword-matched
fallback string of _generate_fallback_response applied to the original
query, which is never empty; invalid (empty or non-string) input returns
the prompt-for-valid-input string.  The embedding returns a plain String
— every modelled exception is handled, so the entry point never raises. -/
theorem C1_answer_total_containment :
    ∀ (s mode ename : String) (st : CacheState) (now : Nat),
      preprocessQuery defaultConfig (PyInput.str s) ≠ "" →
      (checkCache st now (preprocessQuery defaultConfig (PyInput.str s)) mode).1 = none →
        (queryWithOptimizations defaultConfig st now (PyInput.str s) mode
            (PipelineOutcome.err ename)).result = generateFallbackResponse s
        ∧ (queryWithOptimizations defaultConfig st now (PyInput.str s) mode
            (PipelineOutcome.err ename)).result ≠ ""
        ∧ (∀ (q : PyInput), preprocessQuery defaultConfig q = "" →
            (queryWithOptimizations defaultConfig st now q mode
                (PipelineOutcome.err ename)).result = "Please provide a valid question."
            ∧ (queryWithOptimizations defaultConfig st now q mode
                (PipelineOutcome.err ename)).result ≠ "") := by
  intro s mode ename st now hproc hmiss
  rw [queryWithOptimizations_miss_err st now s mode ename hproc hmiss]
  refine ⟨rfl, generateFallbackResponse_ne_empty s, ?_⟩
  intro q hq
  rw [queryWithOptimizations_invalid st now q mode (PipelineOutcome.err ename) hq]
  refine ⟨rfl, ?_⟩
  show "Please provide a valid question." ≠ ""
  decide

/-- Witness for C1 at a concrete query, mode, and injected exception. -/
theorem C1_answer_total_containment_witness :
    (queryWithOptimizations defaultConfig emptyCache 0 (PyInput.str "hello") "mix"
        (PipelineOutcome.err "RuntimeError")).result = generateFallbackResponse "hello"
    ∧ (queryWithOptimizations defaultConfig emptyCache 0 (PyInput.str "hello") "mix"
        (PipelineOutcome.err "RuntimeError")).result ≠ "" := by
  have h := C1_answer_total_containment "hello" "mix" "RuntimeError" emptyCache 0
    (by decide) rfl
  exact ⟨h.1, h.2.1⟩

/-- Claim C5: after a successful, cacheable first call (non-empty result not
starting with the apology marker) on a cache miss, a second call with the
same query and mode within the TTL window returns the identical string,
makes no background submission (hence neither the retrieval manager nor
the model client runs — the second call's pipeline outcome argument is
arbitrary and unused), and records exactly a cache hit plus a successful
request completion. -/
theorem C5_cached_call_idempotent :
    ∀ (s mode r : String) (st : CacheState) (now1 now2 : Nat)
      (pipeline2 : PipelineOutcome),
      preprocessQuery defaultConfig (PyInput.str s) ≠ "" →
      (checkCache st now1 (preprocessQuery defaultConfig (PyInput.str s)) mode).1 = none →
      r ≠ "" →
      strStartsWith r "I apologize" = false →
      now2 < now1 + 3600 →
      (queryWithOptimizations defaultConfig st now1 (PyInput.str s) mode
          (PipelineOutcome.ok r)).result = r
      ∧ (queryWithOptimizations defaultConfig
            (queryWithOptimizations defaultConfig st now1 (PyInput.str s) mode
              (PipelineOutcome.ok r)).cache
            now2 (PyInput.str s) mode pipeline2).result
          = (queryWithOptimizations defaultConfig st now1 (PyInput.str s) mode
              (PipelineOutcome.ok r)).result
      ∧ (queryWithOptimizations defaultConfig
            (queryWithOptimizations defaultConfig st now1 (PyInput.str s) mode
              (PipelineOutcome.ok r)).cache
            now2 (PyInput.str s) mode pipeline2).events
          = [ObsEvent.reqStart, ObsEvent.cacheHit, ObsEvent.reqEnd true none]
      ∧ ObsEvent.bgSubmit ∉ (queryWithOptimizations defaultConfig
            (queryWithOptimizations defaultConfig st now1 (PyInput.str s) mode
              (PipelineOutcome.ok r)).cache
            now2 (PyInput.str s) mode pipeline2).events
      ∧ (queryWithOptimizations defaultConfig
            (queryWithOptimizations defaultConfig st now1 (PyInput.str s) mode
              (PipelineOutcome.ok r)).cache
            now2 (PyInput.str s) mode pipeline2).cache
          = (queryWithOptimizations defaultConfig st now1 (PyInput.str s) mode
              (PipelineOutcome.ok r)).cache := by
  intro s mode r st now1 now2 pipeline2 hproc hmiss hne hap ht
  have hcall1 := queryWithOptimizations_miss_ok st now1 s mode r hproc hmiss hne hap
  rw [hcall1]
  have hhit := checkCache_after_store defaultConfig
    (checkCache st now1 (preprocessQuery defaultConfig (PyInput.str s)) mode).2
    now1 now2 (preprocessQuery defaultConfig (PyInput.str s)) mode r
    (by rw [defaultConfig_cache_ttl]; exact ht)
  have hhit1 : (checkCache (cacheResult defaultConfig
      (checkCache st now1 (preprocessQuery defaultConfig (PyInput.str s)) mode).2 now1
      (preprocessQuery defaultConfig (PyInput.str s)) mode r) now2
      (preprocessQuery defaultConfig (PyInput.str s)) mode).1 = some r := by
    rw [hhit]
  have hhit2 : (checkCache (cacheResult defaultConfig
      (checkCache st now1 (preprocessQuery defaultConfig (PyInput.str s)) mode).2 now1
      (preprocessQuery defaultConfig (PyInput.str s)) mode r) now2
      (preprocessQuery defaultConfig (PyInput.str s)) mode).2 = cacheResult defaultConfig
      (checkCache st now1 (preprocessQuery defaultConfig (PyInput.str s)) mode).2 now1
      (preprocessQuery defaultConfig (PyInput.str s)) mode r := by
    rw [hhit]
  have hcall2 := queryWithOptimizations_hit
    (cacheResult defaultConfig
      (checkCache st now1 (preprocessQuery defaultConfig (PyInput.str s)) mode).2 now1
      (preprocessQuery defaultConfig (PyInput.str s)) mode r)
    now2 (PyInput.str s) mode pipeline2 r hproc hhit1
  rw [hcall2]
  refine ⟨rfl, rfl, rfl, ?_, hhit2⟩
  show ObsEvent.bgSubmit ∉ [ObsEvent.reqStart, ObsEvent.cacheHit, ObsEvent.reqEnd true none]
  decide

/-- Witness for C5 at a concrete query, mode, result, and timestamps. -/
theorem C5_cached_call_idempotent_witness :
    (queryWithOptimizations defaultConfig
        (queryWithOptimizations defaultConfig emptyCache 0 (PyInput.str "hello") "mix"
          (PipelineOutcome.ok "The answer.")).cache
        100 (PyInput.str "hello") "mix" (PipelineOutcome.err "X")).result
      = (queryWithOptimizations defaultConfig emptyCache 0 (PyInput.str "hello") "mix"
          (PipelineOutcome.ok "The answer.")).result := by
  have h := C5_cached_call_idempotent "hello" "mix" "The answer." emptyCache 0 100
    (PipelineOutcome.err "X") (by decide) rfl (by decide) (by decide) (by decide)
  exact h.2.1

/-- Claim C6 counterexample: on the invalid-input early return (here the empty
string query) the engine records the request start but NO matching
record_request_end — the return at the validation step happens before any
record_request_end call, refuting the claim's "regardless of outcome". -/
theorem C6_counterexample :
    (queryWithOptimizations defaultConfig emptyCache 0 (PyInput.str "") "mix"
        (PipelineOutcome.ok "x")).events = [ObsEvent.reqStart]
    ∧ ((queryWithOptimizations defaultConfig emptyCache 0 (PyInput.str "") "mix"
        (PipelineOutcome.ok "x")).events.any ObsEvent.isReqEnd) = false :=
  ⟨rfl, rfl⟩

/-- Claim C6 (amended): every call records the request start first; every call
whose input validation succeeds (non-empty preprocessed query) also
records a matching request end; the invalid-input early return records
only the start. -/
theorem C6_request_accounting :
    ∀ (st : CacheState) (now : Nat) (q : PyInput) (mode : String)
      (pipeline : PipelineOutcome),
      (queryWithOptimizations defaultConfig st now q mode pipeline).events.head?
          = some ObsEvent.reqStart
      ∧ (preprocessQuery defaultConfig q ≠ "" →
          ((queryWithOptimizations defaultConfig st now q mode pipeline).events.any
              ObsEvent.isReqEnd) = true)
      ∧ (preprocessQuery defaultConfig q = "" →
          (queryWithOptimizations defaultConfig st now q mode pipeline).events
            = [ObsEvent.reqStart]) := by
  intro st now q mode pipeline
  by_cases hproc : preprocessQuery defaultConfig q = ""
  · rw [queryWithOptimizations_invalid st now q mode pipeline hproc]
    exact ⟨rfl, fun h => absurd hproc h, fun _ => rfl⟩
  · cases hp : (checkCache st now (preprocessQuery defaultConfig q) mode).1 with
    | some v =>
      rw [queryWithOptimizations_hit st now q mode pipeline v hproc hp]
      exact ⟨rfl, fun _ => rfl, fun h => absurd h hproc⟩
    | none =>
      have hsh := queryWithOptimizations_miss_events st now q mode hproc hp
      cases pipeline with
      | ok r =>
        rw [hsh.1 r]
        exact ⟨rfl, fun _ => rfl, fun h => absurd h hproc⟩
      | err e =>
        rw [hsh.2 e]
        exact ⟨rfl, fun _ => rfl, fun h => absurd h hproc⟩

/-- Witness for C6 (amended): a valid call records both start and end; an
invalid call records only the start. -/
theorem C6_request_accounting_witness :
    ((queryWithOptimizations defaultConfig emptyCache 0 (PyInput.str "hi") "mix"
        (PipelineOutcome.ok "r")).events.any ObsEvent.isReqEnd) = true
    ∧ (queryWithOptimizations defaultConfig emptyCache 0 PyInput.nonString "mix"
        (PipelineOutcome.ok "r")).events = [ObsEvent.reqStart] := by
  refine ⟨?_, ?_⟩
  · exact (C6_request_accounting emptyCache 0 (PyInput.str "hi") "mix"
      (PipelineOutcome.ok "r")).2.1 (by decide)
  · exact (C6_request_accounting emptyCache 0 PyInput.nonString "mix"
      (PipelineOutcome.ok "r")).2.2 rfl


set_option maxRecDepth 100000 in
/-- Witness for C4: inserting a fresh key into a concrete cache of exactly
100 entries leaves exactly 100 entries. -/
theorem C4_cache_capacity_and_eviction_witness :
    (cacheResult defaultConfig (storeDistinct 100) 200 "newquery" "m" "v").query_cache.length
      = 100 := by
  have h := C4_cache_capacity_and_eviction.1 (storeDistinct 100) 200 "newquery" "m" "v"
    (by constructor
        · decide
        · decide)
    (by decide)
  exact (h.2 (by decide) (by decide)).1

/-- Witness for C8: the concrete default breadth and an unrecognized
mode string. -/
theorem C8_mode_parameter_profiles_witness :
    (selectQueryParam 80 "fast").top_k ≤ 40
    ∧ selectQueryParam 80 "weird"
        = { mode := "hybrid"
            top_k := 80
            response_type := "Multiple Paragraphs"
            max_token_for_text_unit := none
            max_token_for_global_context := none
            max_token_for_local_context := none } := by
  have h := C8_mode_parameter_profiles 80 "weird"
  exact ⟨h.1, (h.2.2.2.2 (by decide) (by decide)).1⟩

end Dashboard
